import Mathlib

/-!
Verification of the prep-print-pro bleed-extension and export pipeline.

The pixel-geometry, fill, workflow-control and export logic of the
repository is embedded shallowly: TypeScript `number` arithmetic on
physical dimensions is modelled over `ℚ`/`ℤ`, pixel coordinates over
`ℕ`/`ℤ`, RGBA byte buffers as functions `ℕ → ℕ` (flat RGBA array
indexing as in the source), and fallible / asynchronous operations as
`Except` values over explicit outcome types.
-/

namespace PrepPrintPro

/-! ## mm → px conversion (src/unnamed/part_020, `mmToPixels`)

`Math.round((mm * dpi) / 25.4)`.  JavaScript `Math.round` rounds half
toward +∞, i.e. `Math.round x = ⌊x + 1/2⌋`. -/

/-- JavaScript `Math.round`: round half up (toward +∞). -/
def jsRound (q : ℚ) : ℤ := ⌊q + 1/2⌋

/-- `mmToPixels` from `src/unnamed/part_020`: `Math.round((mm * dpi) / 25.4)`;
`25.4 = 127/5`. -/
def mmToPixels (mm dpi : ℚ) : ℤ := jsRound (mm * dpi / (127/5))

/-! ## MarginAreaExtractor (src/unnamed/part_013) -/

/-- The `MarginArea` record of `src/unnamed/part_013`: a target rectangle in
the bleed ring plus a context rectangle of adjacent content. -/
structure MarginArea where
  x : ℤ
  y : ℤ
  width : ℤ
  height : ℤ
  contextX : ℤ
  contextY : ℤ
  contextWidth : ℤ
  contextHeight : ℤ
deriving DecidableEq, Repr

/-- `CONTEXT_SLICE_PIXELS = Math.max(120, Math.floor(Math.min(finalWidth, finalHeight) / 3))`;
JavaScript `Math.floor` division is `Int.fdiv`. -/
def contextSlicePixels (finalWidth finalHeight : ℤ) : ℤ :=
  max 120 (Int.fdiv (min finalWidth finalHeight) 3)

/-- The `top` area pushed by `MarginAreaExtractor.extractAllBleedMarginAreas`. -/
def topArea (bleedPixels finalWidth finalHeight : ℤ) : MarginArea :=
  let csp := contextSlicePixels finalWidth finalHeight
  let canvasWidth := finalWidth + bleedPixels * 2
  { x := 0, y := 0, width := canvasWidth, height := bleedPixels
    contextX := 0, contextY := bleedPixels
    contextWidth := canvasWidth, contextHeight := min csp finalHeight }

/-- The `bottom` area pushed by `MarginAreaExtractor.extractAllBleedMarginAreas`. -/
def bottomArea (bleedPixels finalWidth finalHeight : ℤ) : MarginArea :=
  let csp := contextSlicePixels finalWidth finalHeight
  let canvasWidth := finalWidth + bleedPixels * 2
  { x := 0, y := bleedPixels + finalHeight, width := canvasWidth, height := bleedPixels
    contextX := 0, contextY := bleedPixels + finalHeight - min csp finalHeight
    contextWidth := canvasWidth, contextHeight := min csp finalHeight }

/-- The `left` area pushed by `MarginAreaExtractor.extractAllBleedMarginAreas`. -/
def leftArea (bleedPixels finalWidth finalHeight : ℤ) : MarginArea :=
  let csp := contextSlicePixels finalWidth finalHeight
  { x := 0, y := bleedPixels, width := bleedPixels, height := finalHeight
    contextX := bleedPixels, contextY := bleedPixels
    contextWidth := min csp finalWidth, contextHeight := finalHeight }

/-- The `right` area pushed by `MarginAreaExtractor.extractAllBleedMarginAreas`. -/
def rightArea (bleedPixels finalWidth finalHeight : ℤ) : MarginArea :=
  let csp := contextSlicePixels finalWidth finalHeight
  { x := bleedPixels + finalWidth, y := bleedPixels, width := bleedPixels, height := finalHeight
    contextX := bleedPixels + finalWidth - min csp finalWidth, contextY := bleedPixels
    contextWidth := min csp finalWidth, contextHeight := finalHeight }

/-- `MarginAreaExtractor.extractAllBleedMarginAreas` from `src/unnamed/part_013`:
pushes the `top`, `bottom`, `left`, `right` areas in that order. -/
def extractAllBleedMarginAreas (bleedPixels finalWidth finalHeight : ℤ) : List MarginArea :=
  [topArea bleedPixels finalWidth finalHeight,
   bottomArea bleedPixels finalWidth finalHeight,
   leftArea bleedPixels finalWidth finalHeight,
   rightArea bleedPixels finalWidth finalHeight]

/-- Membership of the integer pixel `(x, y)` in the target rectangle of a
margin area (half-open on the right/bottom, as pixel rectangles are). -/
def inTargetRect (a : MarginArea) (x y : ℤ) : Prop :=
  a.x ≤ x ∧ x < a.x + a.width ∧ a.y ≤ y ∧ y < a.y + a.height

instance (a : MarginArea) (x y : ℤ) : Decidable (inTargetRect a x y) := by
  unfold inTargetRect; infer_instance

/-- The final (non-bleed) content rectangle
`[bleedPixels, bleedPixels + finalWidth) × [bleedPixels, bleedPixels + finalHeight)`. -/
def inFinalRect (bleedPixels finalWidth finalHeight x y : ℤ) : Prop :=
  bleedPixels ≤ x ∧ x < bleedPixels + finalWidth ∧
  bleedPixels ≤ y ∧ y < bleedPixels + finalHeight

instance (b fw fh x y : ℤ) : Decidable (inFinalRect b fw fh x y) := by
  unfold inFinalRect; infer_instance

/-- The context rectangle of a margin area lies entirely inside the final
content rectangle. -/
def contextInsideFinalRect (bleedPixels finalWidth finalHeight : ℤ) (a : MarginArea) : Prop :=
  bleedPixels ≤ a.contextX ∧ a.contextX + a.contextWidth ≤ bleedPixels + finalWidth ∧
  bleedPixels ≤ a.contextY ∧ a.contextY + a.contextHeight ≤ bleedPixels + finalHeight

instance (b fw fh : ℤ) (a : MarginArea) : Decidable (contextInsideFinalRect b fw fh a) := by
  unfold contextInsideFinalRect; infer_instance

/-! ## BleedFallbackFiller (src/unnamed/part_011, `finalFillBleedFromEdge`)

The RGBA buffer of `ctx.getImageData` is a flat byte array
`data[(y * width + x) * 4 + c]`; it is modelled as a function `ℕ → ℕ`.
The canvas measures `finalWidth + 2·bleedPixels` by
`finalHeight + 2·bleedPixels`, as the source derives. -/

/-- Flat RGBA index of pixel `(x, y)`: `(y * width + x) * 4`. -/
def pixIdx (width x y : ℕ) : ℕ := (y * width + x) * 4

/-- The `isBleedWhite` closure of `finalFillBleedFromEdge`: the pixel lies
outside the final rectangle and is near-white
(`r > 235 && g > 235 && b > 235 && a > 200`). -/
def isBleedWhite (data : ℕ → ℕ) (width bleedPixels finalWidth finalHeight x y : ℕ) : Bool :=
  if x < bleedPixels ∨ bleedPixels + finalWidth ≤ x ∨
     y < bleedPixels ∨ bleedPixels + finalHeight ≤ y then
    let idx := pixIdx width x y
    decide (235 < data idx ∧ 235 < data (idx + 1) ∧ 235 < data (idx + 2) ∧ 200 < data (idx + 3))
  else
    false

/-- The content-pixel test of `finalFillBleedFromEdge`:
`!(r > 235 && g > 235 && b > 235) && a > 24`. -/
def isContentPixel (data : ℕ → ℕ) (width x y : ℕ) : Bool :=
  let idx := pixIdx width x y
  decide (¬ (235 < data idx ∧ 235 < data (idx + 1) ∧ 235 < data (idx + 2)) ∧ 24 < data (idx + 3))

/-- The `contentPixels` collection loop of `finalFillBleedFromEdge`:
row-major scan of the final rectangle, pushing coordinates `(x, y)` of
content pixels. -/
def contentPixels (data : ℕ → ℕ) (width bleedPixels finalWidth finalHeight : ℕ) :
    List (ℕ × ℕ) :=
  (List.range finalHeight).flatMap fun dy =>
    (List.range finalWidth).filterMap fun dx =>
      let x := bleedPixels + dx
      let y := bleedPixels + dy
      if isContentPixel data width x y then some (x, y) else none

/-- Squared Euclidean distance `dx*dx + dy*dy` between two pixels, over `ℤ`
(the source computes it in floating point on integer coordinates, exactly). -/
def sqDist (x y cx cy : ℕ) : ℤ :=
  ((cx : ℤ) - (x : ℤ)) * ((cx : ℤ) - (x : ℤ)) + ((cy : ℤ) - (y : ℤ)) * ((cy : ℤ) - (y : ℤ))

/-- The nearest-content-pixel scan of `finalFillBleedFromEdge`, including its
`if (dist === 0) break` early exit: tracks the best candidate so far
(`nearestIdx`/`nearestDist`, starting from `-1`/`Infinity`) and replaces it
only on strictly smaller distance. -/
def findNearest (x y : ℕ) : List (ℕ × ℕ) → Option ((ℕ × ℕ) × ℤ) → Option (ℕ × ℕ)
  | [], best => best.map Prod.fst
  | p :: rest, none =>
    let d := sqDist x y p.1 p.2
    if d = 0 then some p else findNearest x y rest (some (p, d))
  | p :: rest, some (q, bd) =>
    let d := sqDist x y p.1 p.2
    if d < bd then
      if d = 0 then some p else findNearest x y rest (some (p, d))
    else
      findNearest x y rest (some (q, bd))

/-- State threaded through the main fill loop: the mutable `data` array and
the `filledCount` counter. -/
structure FillState where
  data : ℕ → ℕ
  filled : ℕ

/-- One iteration of the main double loop of `finalFillBleedFromEdge` at
pixel `(x, y)`: if the pixel is still bleed-white, copy the RGBA of the
nearest content pixel over it and count the fill. -/
def fillStep (width bleedPixels finalWidth finalHeight : ℕ) (pts : List (ℕ × ℕ))
    (s : FillState) (xy : ℕ × ℕ) : FillState :=
  if isBleedWhite s.data width bleedPixels finalWidth finalHeight xy.1 xy.2 then
    match findNearest xy.1 xy.2 pts none with
    | some c =>
      let srcIdx := pixIdx width c.1 c.2
      let idx := pixIdx width xy.1 xy.2
      let d := s.data
      { data := fun i =>
          if i = idx then d srcIdx
          else if i = idx + 1 then d (srcIdx + 1)
          else if i = idx + 2 then d (srcIdx + 2)
          else if i = idx + 3 then d (srcIdx + 3)
          else d i,
        filled := s.filled + 1 }
    | none => s
  else
    s

/-- Row-major enumeration of all canvas pixels `(x, y)`,
`y` outer and `x` inner, as in the main double loop. -/
def allCoords (width height : ℕ) : List (ℕ × ℕ) :=
  (List.range height).flatMap fun y => (List.range width).map fun x => (x, y)

/-- Result of `finalFillBleedFromEdge`: the canvas bytes after the call, the
`filledCount`, and whether the no-content warning was logged. -/
structure FillResult where
  data : ℕ → ℕ
  filled : ℕ
  warnedNoContent : Bool

/-- `BleedFallbackFiller.finalFillBleedFromEdge` from `src/unnamed/part_011`:
derives the canvas size, collects the content pixels of the final
rectangle, warns and returns unchanged when there are none, and otherwise
runs the nearest-neighbor fill loop over every canvas pixel.
`ctx.putImageData` is executed only when `filledCount > 0`, so the canvas
keeps its original bytes when the loop filled nothing. -/
def finalFillBleedFromEdge (bleedPixels finalWidth finalHeight : ℕ) (data : ℕ → ℕ) :
    FillResult :=
  let canvasWidth := finalWidth + bleedPixels * 2
  let canvasHeight := finalHeight + bleedPixels * 2
  let pts := contentPixels data canvasWidth bleedPixels finalWidth finalHeight
  if pts.isEmpty then
    { data := data, filled := 0, warnedNoContent := true }
  else
    let s := (allCoords canvasWidth canvasHeight).foldl
      (fillStep canvasWidth bleedPixels finalWidth finalHeight pts)
      { data := data, filled := 0 }
    { data := if s.filled = 0 then data else s.data,
      filled := s.filled,
      warnedNoContent := false }

/-- A concrete 3 × 3 test canvas (bleed 1, final 1 × 1): the single final
pixel (1, 1) — flat bytes 16..19 — is opaque red, every other pixel is
opaque white. -/
def sampleBuffer : ℕ → ℕ := fun i =>
  if i = 16 then 100
  else if i = 17 then 0
  else if i = 18 then 0
  else 255

/-- A concrete 3 × 3 test canvas with no content pixel: everything opaque
white. -/
def whiteBuffer : ℕ → ℕ := fun _ => 255

/-! ## ImageRenderer.resizeAndPositionContent (src/src/services/image/ImageRenderer.ts)

The scale/position arithmetic runs on TypeScript numbers; it is embedded
over `ℚ`. -/

/-- The rectangle passed to `ctx.drawImage` by `resizeAndPositionContent`. -/
structure DrawnRect where
  x : ℚ
  y : ℚ
  width : ℚ
  height : ℚ
deriving DecidableEq

/-- `ImageRenderer.resizeAndPositionContent`: uniform scale
`min(finalWidth / img.width, finalHeight / img.height)`, content centered in
the final rectangle offset by `bleedPixels`. -/
def resizeAndPositionContent (imgWidth imgHeight finalWidth finalHeight bleedPixels : ℚ) :
    DrawnRect :=
  let scaleX := finalWidth / imgWidth
  let scaleY := finalHeight / imgHeight
  let scale := min scaleX scaleY
  let scaledWidth := imgWidth * scale
  let scaledHeight := imgHeight * scale
  { x := bleedPixels + (finalWidth - scaledWidth) / 2
    y := bleedPixels + (finalHeight - scaledHeight) / 2
    width := scaledWidth
    height := scaledHeight }

/-! ## ProcessingWorkflow (src/src/services/image/CanvasManager.ts,
`processImageWithNewWorkflow`)

The staged pipeline polls `cancellationToken.throwIfCancelled()` before the
canvas setup (poll 0), then between each pair of consecutive stages
(polls 1–3), and once more after the export before validating and
returning (poll 4).  `throwIfCancelled` throws
`Error("Processing cancelled…")`, which the caller
(src/src/hooks/useProcessing.ts) classifies as the cancelled outcome —
distinct from the failure path — via `error.message.includes('cancelled')`.
A cancellation token is set once and never reset, so the poll results are
modelled as a function `ℕ → Bool` of the poll index. -/

/-- Physical parameters of a run (src §3 / `@/types/print`), embedded over `ℚ`. -/
structure ProcessingParameters where
  finalWidthMm : ℚ
  finalHeightMm : ℚ
  bleedMarginMm : ℚ
  dpi : ℚ
deriving DecidableEq

/-- Valid parameters: positive final dimensions, non-negative bleed margin,
dpi restricted to {150, 300}. -/
def ValidParameters (p : ProcessingParameters) : Prop :=
  0 < p.finalWidthMm ∧ 0 < p.finalHeightMm ∧ 0 ≤ p.bleedMarginMm ∧
  (p.dpi = 150 ∨ p.dpi = 300)

instance (p : ProcessingParameters) : Decidable (ValidParameters p) := by
  unfold ValidParameters; infer_instance

/-- Integer pixel dimensions. -/
structure Dimensions where
  width : ℤ
  height : ℤ
deriving DecidableEq

/-- The `ProcessingResult` returned by `processImageWithNewWorkflow`
(the data-URL string itself is irrelevant to the dimension claims and is
left out of the record). -/
structure ProcessingResult where
  originalDimensions : Dimensions
  finalDimensions : Dimensions
  appliedBleed : ℚ
deriving DecidableEq

/-- The four canvas-touching workflow stages guarded by cancellation polls. -/
inductive Stage
  | positionContent
  | fillBleed
  | addCutLines
  | exportImage
deriving DecidableEq, Repr

/-- The stages in execution order. -/
def stageOrder : List Stage :=
  [Stage.positionContent, Stage.fillBleed, Stage.addCutLines, Stage.exportImage]

/-- Terminal outcome of one workflow run.  `cancelled` is the outcome the
caller derives from the `Processing cancelled` error message; `failed`
carries the error message of a fatal stage failure. -/
inductive RunOutcome
  | completed (result : ProcessingResult)
  | cancelled
  | failed (msg : String)
deriving DecidableEq

/-- `ProcessingWorkflow.processImageWithNewWorkflow`, as a function of the
parameters, the source image dimensions, the cancellation-poll results, and
the length of the exported data URL.  Returns the terminal outcome together
with the list of stages that executed.  Poll `k` is the `throwIfCancelled`
call before stage `k` (`k < 4`) or before final validation (`k = 4`); the
validation rejects exports shorter than 1000 characters as corrupted. -/
def processImageWithNewWorkflow (p : ProcessingParameters) (origWidth origHeight : ℤ)
    (cancelAt : ℕ → Bool) (exportLen : ℕ) : RunOutcome × List Stage :=
  if cancelAt 0 then (RunOutcome.cancelled, []) else
  let finalWidth := mmToPixels p.finalWidthMm p.dpi
  let finalHeight := mmToPixels p.finalHeightMm p.dpi
  let bleedPixels := mmToPixels p.bleedMarginMm p.dpi
  let canvasWidth := finalWidth + bleedPixels * 2
  let canvasHeight := finalHeight + bleedPixels * 2
  let ex1 := [Stage.positionContent]
  if cancelAt 1 then (RunOutcome.cancelled, ex1) else
  let ex2 := ex1 ++ [Stage.fillBleed]
  if cancelAt 2 then (RunOutcome.cancelled, ex2) else
  let ex3 := ex2 ++ [Stage.addCutLines]
  if cancelAt 3 then (RunOutcome.cancelled, ex3) else
  let ex4 := ex3 ++ [Stage.exportImage]
  if cancelAt 4 then (RunOutcome.cancelled, ex4) else
  if exportLen < 1000 then
    (RunOutcome.failed "Generated image appears to be empty or corrupted", ex4)
  else
    (RunOutcome.completed
      { originalDimensions := { width := origWidth, height := origHeight }
        finalDimensions := { width := canvasWidth, height := canvasHeight }
        appliedBleed := p.bleedMarginMm }, ex4)

/-! ## AIInpaintingService (src/src/services/image/AIInpaintingService.ts)

`tryAIInpainting` wraps the single HuggingFace provider call in
`withTimeout(…, 15000)` and a `try`/`catch` that converts every rejection
into a `null` return.  The provider promise is modelled by its settlement:
at which (virtual) millisecond it settles and whether it resolves with an
image, resolves with `null`, or rejects. -/

/-- Opaque stand-in for the `HTMLImageElement` a provider may return. -/
structure AIImage where
  id : ℕ
deriving DecidableEq

/-- Settlement of the provider promise: resolution (possibly with `null`)
or rejection, at a given virtual time in milliseconds. -/
inductive ProviderOutcome
  | resolved (timeMs : ℕ) (img : Option AIImage)
  | rejected (timeMs : ℕ) (msg : String)
deriving DecidableEq

/-- The virtual millisecond at which the provider promise settles. -/
def ProviderOutcome.settleTime : ProviderOutcome → ℕ
  | .resolved t _ => t
  | .rejected t _ => t

/-- `AIInpaintingService.withTimeout`: races the promise against a timer of
`ms` milliseconds; the underlying settlement wins when it happens strictly
before the timer fires, otherwise the result is a rejection at `ms`. -/
def withTimeout (o : ProviderOutcome) (ms : ℕ) (taskLabel : String) : ProviderOutcome :=
  match o with
  | .resolved t v => if t < ms then .resolved t v else .rejected ms ("Timed out: " ++ taskLabel)
  | .rejected t m => if t < ms then .rejected t m else .rejected ms ("Timed out: " ++ taskLabel)

/-- What `tryAIInpainting` hands back to its caller: the returned value
(`none` models the JavaScript `null`) and the virtual settle time. -/
structure TryInpaintingOutcome where
  result : Option AIImage
  timeMs : ℕ
deriving DecidableEq

/-- `AIInpaintingService.tryAIInpainting`: fast-fails with `null` when no
HuggingFace key is configured; otherwise awaits the provider under
`withTimeout(…, 15000)` — a resolved image is returned, a resolved `null`
falls through to the final `return null`, and any rejection (provider
failure, malformed response, or timeout) is caught and also yields `null`.
The result is an `Except` to record that no exception escapes. -/
def tryAIInpainting (hasHuggingFaceKey : Bool) (provider : ProviderOutcome) :
    Except String TryInpaintingOutcome :=
  if ¬ hasHuggingFaceKey then
    Except.ok { result := none, timeMs := 0 }
  else
    match withTimeout provider 15000 "HuggingFace LaMa API" with
    | .resolved t (some img) => Except.ok { result := some img, timeMs := t }
    | .resolved t none => Except.ok { result := none, timeMs := t }
    | .rejected t _ => Except.ok { result := none, timeMs := t }

/-! ## PDFExporter (src/src/services/image/PDFExporter.ts,
`createPDFFromProcessedImage`)

The export loads the processed image, rejects data URLs shorter than 1000
characters, assembles a one-page PDF around the JPEG bytes and rejects the
assembly when it is smaller than 1000 bytes — but that rejection (like any
failure of the assembly itself) lands in the inner `catch`, whose
"ultimate fallback" resolves the raw image blob without any size check. -/

/-- The environment of one export run: which external steps succeed and the
byte sizes involved. -/
structure ExportEnv where
  /-- The processed image element fires `onload` (vs `onerror`). -/
  imageLoads : Bool
  /-- Length of the JPEG data URL produced from the export canvas. -/
  dataUrlLen : ℕ
  /-- Size in bytes of the decoded JPEG image blob. -/
  imageBytes : ℕ
  /-- The inner fetch/blob/arrayBuffer chain of the PDF assembly succeeds. -/
  primaryAssemblyOk : Bool
  /-- The fallback fetch of the data URL succeeds. -/
  fallbackFetchOk : Bool
  /-- Size in bytes of the encoded PDF header text. -/
  headerLen : ℕ
  /-- Size in bytes of the encoded PDF footer text. -/
  footerLen : ℕ
deriving DecidableEq

/-- Size of the assembled primary PDF blob: header + JPEG bytes + footer. -/
def ExportEnv.pdfSize (env : ExportEnv) : ℕ :=
  env.headerLen + env.imageBytes + env.footerLen

/-- The "ultimate fallback" branch of the inner `catch`: re-fetch the data
URL and resolve the raw image blob — with no size check. -/
def exportFallback (env : ExportEnv) : Except String ℕ :=
  if env.fallbackFetchOk then Except.ok env.imageBytes
  else Except.error "fallback fetch of image data URL failed"

/-- `createPDFFromProcessedImage`, returning the byte length of the resolved
blob or the rejection message.  The `pdfBlob.size < 1000` throw is raised
inside the inner `try`, so it is caught by the same `catch (pdfError)` that
handles assembly failures and triggers the unchecked fallback. -/
def createPDFFromProcessedImage (env : ExportEnv) : Except String ℕ :=
  if ¬ env.imageLoads then
    Except.error "Failed to load processed image for PDF creation"
  else if env.dataUrlLen < 1000 then
    Except.error "Generated image data is too small, likely empty"
  else if env.primaryAssemblyOk then
    if env.pdfSize < 1000 then exportFallback env
    else Except.ok env.pdfSize
  else
    exportFallback env

/-! ## Theorems -/

/-- C4: for every `bleedPixels ≥ 0` and `finalWidth, finalHeight > 0`,
`extractAllBleedMarginAreas` returns exactly 4 areas — top, bottom, left,
right in order — whose target rectangles partition the bleed ring with no
gap and no overlap: top and bottom span the full canvas width with height
`bleedPixels`, left and right span only the final-height band, and corner
pixels are covered exactly once, by top or bottom. -/
theorem extractAllBleedMarginAreas_tiles_ring (b fw fh : ℤ)
    (hb : 0 ≤ b) (hfw : 0 < fw) (hfh : 0 < fh) :
    (extractAllBleedMarginAreas b fw fh).length = 4 ∧
    extractAllBleedMarginAreas b fw fh =
      [topArea b fw fh, bottomArea b fw fh, leftArea b fw fh, rightArea b fw fh] ∧
    (topArea b fw fh).width = fw + b * 2 ∧ (topArea b fw fh).height = b ∧
    (bottomArea b fw fh).width = fw + b * 2 ∧ (bottomArea b fw fh).height = b ∧
    (leftArea b fw fh).width = b ∧ (leftArea b fw fh).height = fh ∧
    (rightArea b fw fh).width = b ∧ (rightArea b fw fh).height = fh ∧
    (∀ x y : ℤ, 0 ≤ x → x < fw + b * 2 → 0 ≤ y → y < fh + b * 2 →
      (¬ inFinalRect b fw fh x y ↔
        (inTargetRect (topArea b fw fh) x y ∨ inTargetRect (bottomArea b fw fh) x y ∨
         inTargetRect (leftArea b fw fh) x y ∨ inTargetRect (rightArea b fw fh) x y))) ∧
    (∀ x y : ℤ,
      ¬ (inTargetRect (topArea b fw fh) x y ∧ inTargetRect (bottomArea b fw fh) x y) ∧
      ¬ (inTargetRect (topArea b fw fh) x y ∧ inTargetRect (leftArea b fw fh) x y) ∧
      ¬ (inTargetRect (topArea b fw fh) x y ∧ inTargetRect (rightArea b fw fh) x y) ∧
      ¬ (inTargetRect (bottomArea b fw fh) x y ∧ inTargetRect (leftArea b fw fh) x y) ∧
      ¬ (inTargetRect (bottomArea b fw fh) x y ∧ inTargetRect (rightArea b fw fh) x y) ∧
      ¬ (inTargetRect (leftArea b fw fh) x y ∧ inTargetRect (rightArea b fw fh) x y)) ∧
    (∀ x y : ℤ, 0 ≤ x → x < fw + b * 2 → 0 ≤ y → y < fh + b * 2 →
      ¬ (b ≤ x ∧ x < b + fw) → ¬ (b ≤ y ∧ y < b + fh) →
      (inTargetRect (topArea b fw fh) x y ∨ inTargetRect (bottomArea b fw fh) x y)) := by
  refine ⟨rfl, rfl, rfl, rfl, rfl, rfl, rfl, rfl, rfl, rfl, ?_, ?_, ?_⟩
  · intro x y hx0 hxw hy0 hyh
    simp only [inFinalRect, inTargetRect, topArea, bottomArea, leftArea, rightArea]
    omega
  · intro x y
    simp only [inTargetRect, topArea, bottomArea, leftArea, rightArea]
    omega
  · intro x y hx0 hxw hy0 hyh hxband hyband
    simp only [inTargetRect, topArea, bottomArea]
    omega

/-- C4 witness: the tiling theorem instantiated at bleed 2, final 10 × 10. -/
theorem extractAllBleedMarginAreas_tiles_ring_witness :
    (0:ℤ) ≤ 2 ∧ (0:ℤ) < 10 ∧ (0:ℤ) < 10 ∧
    ((extractAllBleedMarginAreas 2 10 10).length = 4 ∧
     extractAllBleedMarginAreas 2 10 10 =
       [topArea 2 10 10, bottomArea 2 10 10, leftArea 2 10 10, rightArea 2 10 10] ∧
     (topArea 2 10 10).width = 10 + 2 * 2 ∧ (topArea 2 10 10).height = 2 ∧
     (bottomArea 2 10 10).width = 10 + 2 * 2 ∧ (bottomArea 2 10 10).height = 2 ∧
     (leftArea 2 10 10).width = 2 ∧ (leftArea 2 10 10).height = 10 ∧
     (rightArea 2 10 10).width = 2 ∧ (rightArea 2 10 10).height = 10 ∧
     (∀ x y : ℤ, 0 ≤ x → x < 10 + 2 * 2 → 0 ≤ y → y < 10 + 2 * 2 →
       (¬ inFinalRect 2 10 10 x y ↔
         (inTargetRect (topArea 2 10 10) x y ∨ inTargetRect (bottomArea 2 10 10) x y ∨
          inTargetRect (leftArea 2 10 10) x y ∨ inTargetRect (rightArea 2 10 10) x y))) ∧
     (∀ x y : ℤ,
       ¬ (inTargetRect (topArea 2 10 10) x y ∧ inTargetRect (bottomArea 2 10 10) x y) ∧
       ¬ (inTargetRect (topArea 2 10 10) x y ∧ inTargetRect (leftArea 2 10 10) x y) ∧
       ¬ (inTargetRect (topArea 2 10 10) x y ∧ inTargetRect (rightArea 2 10 10) x y) ∧
       ¬ (inTargetRect (bottomArea 2 10 10) x y ∧ inTargetRect (leftArea 2 10 10) x y) ∧
       ¬ (inTargetRect (bottomArea 2 10 10) x y ∧ inTargetRect (rightArea 2 10 10) x y) ∧
       ¬ (inTargetRect (leftArea 2 10 10) x y ∧ inTargetRect (rightArea 2 10 10) x y)) ∧
     (∀ x y : ℤ, 0 ≤ x → x < 10 + 2 * 2 → 0 ≤ y → y < 10 + 2 * 2 →
       ¬ (2 ≤ x ∧ x < 2 + 10) → ¬ (2 ≤ y ∧ y < 2 + 10) →
       (inTargetRect (topArea 2 10 10) x y ∨ inTargetRect (bottomArea 2 10 10) x y))) :=
  ⟨by decide, by decide, by decide,
   extractAllBleedMarginAreas_tiles_ring 2 10 10 (by decide) (by decide) (by decide)⟩

/-- C5 counterexample: at bleed 2, final 10 × 10, not every area's context
rectangle lies inside the final content rectangle — the top area's context
starts at `contextX = 0`, inside the left bleed band. -/
theorem contextRect_escapes_finalRect :
    ¬ (∀ a ∈ extractAllBleedMarginAreas 2 10 10, contextInsideFinalRect 2 10 10 a) := by
  intro h
  have := h (topArea 2 10 10) (by simp [extractAllBleedMarginAreas])
  revert this
  decide

/-- C5 (amended): for `bleedPixels ≥ 0` and positive final dimensions, the
left and right areas' context rectangles lie entirely inside the final
content rectangle, adjacent to their edges; the top and bottom areas'
context rectangles lie inside the final band vertically and adjacent to
their edges, but span the full canvas width horizontally (`contextX = 0`,
`contextWidth = canvasWidth`); every context-slice size equals
`min(contextSlicePixels, availableContentExtent)` with
`contextSlicePixels = max(120, ⌊min(finalWidth, finalHeight) / 3⌋)`. -/
theorem contextRects_adjacent_slices (b fw fh : ℤ)
    (hb : 0 ≤ b) (hfw : 0 < fw) (hfh : 0 < fh) :
    contextInsideFinalRect b fw fh (leftArea b fw fh) ∧
    contextInsideFinalRect b fw fh (rightArea b fw fh) ∧
    (leftArea b fw fh).contextX = b ∧
    (rightArea b fw fh).contextX + (rightArea b fw fh).contextWidth = b + fw ∧
    (leftArea b fw fh).contextWidth = min (contextSlicePixels fw fh) fw ∧
    (leftArea b fw fh).contextHeight = fh ∧
    (rightArea b fw fh).contextWidth = min (contextSlicePixels fw fh) fw ∧
    (rightArea b fw fh).contextHeight = fh ∧
    (topArea b fw fh).contextY = b ∧
    (topArea b fw fh).contextY + (topArea b fw fh).contextHeight ≤ b + fh ∧
    (bottomArea b fw fh).contextY + (bottomArea b fw fh).contextHeight = b + fh ∧
    b ≤ (bottomArea b fw fh).contextY ∧
    (topArea b fw fh).contextX = 0 ∧
    (topArea b fw fh).contextWidth = fw + b * 2 ∧
    (bottomArea b fw fh).contextX = 0 ∧
    (bottomArea b fw fh).contextWidth = fw + b * 2 ∧
    (topArea b fw fh).contextHeight = min (contextSlicePixels fw fh) fh ∧
    (bottomArea b fw fh).contextHeight = min (contextSlicePixels fw fh) fh := by
  dsimp only [contextInsideFinalRect, topArea, bottomArea, leftArea, rightArea]
  omega

/-- C5 amendment witness: the amended context-rectangle theorem at bleed 2,
final 10 × 10. -/
theorem contextRects_adjacent_slices_witness :
    (0:ℤ) ≤ 2 ∧ (0:ℤ) < 10 ∧ (0:ℤ) < 10 ∧
    (contextInsideFinalRect 2 10 10 (leftArea 2 10 10) ∧
     contextInsideFinalRect 2 10 10 (rightArea 2 10 10) ∧
     (leftArea 2 10 10).contextX = 2 ∧
     (rightArea 2 10 10).contextX + (rightArea 2 10 10).contextWidth = 2 + 10 ∧
     (leftArea 2 10 10).contextWidth = min (contextSlicePixels 10 10) 10 ∧
     (leftArea 2 10 10).contextHeight = 10 ∧
     (rightArea 2 10 10).contextWidth = min (contextSlicePixels 10 10) 10 ∧
     (rightArea 2 10 10).contextHeight = 10 ∧
     (topArea 2 10 10).contextY = 2 ∧
     (topArea 2 10 10).contextY + (topArea 2 10 10).contextHeight ≤ 2 + 10 ∧
     (bottomArea 2 10 10).contextY + (bottomArea 2 10 10).contextHeight = 2 + 10 ∧
     2 ≤ (bottomArea 2 10 10).contextY ∧
     (topArea 2 10 10).contextX = 0 ∧
     (topArea 2 10 10).contextWidth = 10 + 2 * 2 ∧
     (bottomArea 2 10 10).contextX = 0 ∧
     (bottomArea 2 10 10).contextWidth = 10 + 2 * 2 ∧
     (topArea 2 10 10).contextHeight = min (contextSlicePixels 10 10) 10 ∧
     (bottomArea 2 10 10).contextHeight = min (contextSlicePixels 10 10) 10) :=
  ⟨by decide, by decide, by decide,
   contextRects_adjacent_slices 2 10 10 (by decide) (by decide) (by decide)⟩

/-- C8: for every source image with positive dimensions,
`resizeAndPositionContent` draws with the uniform scale
`min(finalWidth/imgWidth, finalHeight/imgHeight)`; the drawn rectangle has
positive extent, preserves the source aspect ratio exactly, is centered in
the final rectangle offset by `bleedPixels` on each side, and lies entirely
within the final (non-bleed) rectangle. -/
theorem resizeAndPositionContent_fits_final (iw ih fw fh b : ℚ)
    (hiw : 0 < iw) (hih : 0 < ih) (hfw : 0 < fw) (hfh : 0 < fh) :
    (resizeAndPositionContent iw ih fw fh b).width = iw * min (fw / iw) (fh / ih) ∧
    (resizeAndPositionContent iw ih fw fh b).height = ih * min (fw / iw) (fh / ih) ∧
    0 < (resizeAndPositionContent iw ih fw fh b).width ∧
    0 < (resizeAndPositionContent iw ih fw fh b).height ∧
    (resizeAndPositionContent iw ih fw fh b).width /
      (resizeAndPositionContent iw ih fw fh b).height = iw / ih ∧
    b ≤ (resizeAndPositionContent iw ih fw fh b).x ∧
    (resizeAndPositionContent iw ih fw fh b).x +
      (resizeAndPositionContent iw ih fw fh b).width ≤ b + fw ∧
    b ≤ (resizeAndPositionContent iw ih fw fh b).y ∧
    (resizeAndPositionContent iw ih fw fh b).y +
      (resizeAndPositionContent iw ih fw fh b).height ≤ b + fh ∧
    (resizeAndPositionContent iw ih fw fh b).x - b =
      (b + fw) - ((resizeAndPositionContent iw ih fw fh b).x +
        (resizeAndPositionContent iw ih fw fh b).width) ∧
    (resizeAndPositionContent iw ih fw fh b).y - b =
      (b + fh) - ((resizeAndPositionContent iw ih fw fh b).y +
        (resizeAndPositionContent iw ih fw fh b).height) := by
  dsimp only [resizeAndPositionContent]
  have hscale : 0 < min (fw / iw) (fh / ih) := lt_min (div_pos hfw hiw) (div_pos hfh hih)
  have hwle : iw * min (fw / iw) (fh / ih) ≤ fw := by
    rw [mul_comm]
    exact (le_div_iff₀ hiw).mp (min_le_left _ _)
  have hhle : ih * min (fw / iw) (fh / ih) ≤ fh := by
    rw [mul_comm]
    exact (le_div_iff₀ hih).mp (min_le_right _ _)
  have hwpos : 0 < iw * min (fw / iw) (fh / ih) := mul_pos hiw hscale
  have hhpos : 0 < ih * min (fw / iw) (fh / ih) := mul_pos hih hscale
  refine ⟨rfl, rfl, hwpos, hhpos, ?_, by linarith, by linarith, by linarith, by linarith,
    by ring, by ring⟩
  rw [mul_comm iw _, mul_comm ih _, mul_div_mul_left _ _ (ne_of_gt hscale)]

/-- C8 witness: the positioning theorem at a 300 × 200 source placed into an
85 × 55 final rectangle with 2 px of bleed. -/
theorem resizeAndPositionContent_fits_final_witness :
    (0:ℚ) < 300 ∧ (0:ℚ) < 200 ∧ (0:ℚ) < 85 ∧ (0:ℚ) < 55 ∧
    ((resizeAndPositionContent 300 200 85 55 2).width = 300 * min (85 / 300 : ℚ) (55 / 200) ∧
     (resizeAndPositionContent 300 200 85 55 2).height = 200 * min (85 / 300 : ℚ) (55 / 200) ∧
     0 < (resizeAndPositionContent 300 200 85 55 2).width ∧
     0 < (resizeAndPositionContent 300 200 85 55 2).height ∧
     (resizeAndPositionContent 300 200 85 55 2).width /
       (resizeAndPositionContent 300 200 85 55 2).height = (300 : ℚ) / 200 ∧
     2 ≤ (resizeAndPositionContent 300 200 85 55 2).x ∧
     (resizeAndPositionContent 300 200 85 55 2).x +
       (resizeAndPositionContent 300 200 85 55 2).width ≤ 2 + 85 ∧
     2 ≤ (resizeAndPositionContent 300 200 85 55 2).y ∧
     (resizeAndPositionContent 300 200 85 55 2).y +
       (resizeAndPositionContent 300 200 85 55 2).height ≤ 2 + 55 ∧
     (resizeAndPositionContent 300 200 85 55 2).x - 2 =
       (2 + 85) - ((resizeAndPositionContent 300 200 85 55 2).x +
         (resizeAndPositionContent 300 200 85 55 2).width) ∧
     (resizeAndPositionContent 300 200 85 55 2).y - 2 =
       (2 + 55) - ((resizeAndPositionContent 300 200 85 55 2).y +
         (resizeAndPositionContent 300 200 85 55 2).height)) :=
  ⟨by decide, by decide, by decide, by decide,
   resizeAndPositionContent_fits_final 300 200 85 55 2
     (by decide) (by decide) (by decide) (by decide)⟩

/-- C6: `tryAIInpainting` never throws to its caller — for every key
configuration and provider settlement it returns `Except.ok`; a provider
rejection (failure or malformed response), a provider that resolved with
`null`, or a provider call reaching the hard 15000 ms timeout all yield
`null`, and the call settles within the 15000 ms timeout bound rather than
blocking longer. -/
theorem tryAIInpainting_never_throws (hasKey : Bool) (provider : ProviderOutcome) :
    ∃ out : TryInpaintingOutcome,
      tryAIInpainting hasKey provider = Except.ok out ∧
      out.timeMs ≤ 15000 ∧
      out.timeMs ≤ max provider.settleTime 15000 ∧
      (∀ t m, provider = ProviderOutcome.rejected t m → out.result = none) ∧
      (∀ t, provider = ProviderOutcome.resolved t none → out.result = none) ∧
      (15000 ≤ provider.settleTime → out.result = none) := by
  cases hasKey with
  | false =>
    refine ⟨{ result := none, timeMs := 0 }, rfl, ?_, ?_, ?_, ?_, ?_⟩ <;>
      first
        | (dsimp only; omega)
        | (intros; rfl)
  | true =>
    cases provider with
    | resolved t v =>
      by_cases ht : t < 15000
      · cases v with
        | some img =>
          refine ⟨{ result := some img, timeMs := t }, ?_, ?_, ?_, ?_, ?_, ?_⟩
          · simp [tryAIInpainting, withTimeout, ht]
          · dsimp only; omega
          · dsimp only [ProviderOutcome.settleTime]; omega
          · intro t' m' h; cases h
          · intro t' h; cases h
          · intro h; dsimp only [ProviderOutcome.settleTime] at h; omega
        | none =>
          refine ⟨{ result := none, timeMs := t }, ?_, ?_, ?_, ?_, ?_, ?_⟩
          · simp [tryAIInpainting, withTimeout, ht]
          · dsimp only; omega
          · dsimp only [ProviderOutcome.settleTime]; omega
          · intro t' m' h; cases h
          · intro t' h; rfl
          · intro h; rfl
      · refine ⟨{ result := none, timeMs := 15000 }, ?_, ?_, ?_, ?_, ?_, ?_⟩
        · simp [tryAIInpainting, withTimeout, ht]
        · dsimp only; omega
        · dsimp only [ProviderOutcome.settleTime]; omega
        · intro t' m' h; cases h
        · intro t' h; rfl
        · intro h; rfl
    | rejected t m =>
      by_cases ht : t < 15000
      · refine ⟨{ result := none, timeMs := t }, ?_, ?_, ?_, ?_, ?_, ?_⟩
        · simp [tryAIInpainting, withTimeout, ht]
        · dsimp only; omega
        · dsimp only [ProviderOutcome.settleTime]; omega
        · intro t' m' h; rfl
        · intro t' h; rfl
        · intro h; rfl
      · refine ⟨{ result := none, timeMs := 15000 }, ?_, ?_, ?_, ?_, ?_, ?_⟩
        · simp [tryAIInpainting, withTimeout, ht]
        · dsimp only; omega
        · dsimp only [ProviderOutcome.settleTime]; omega
        · intro t' m' h; rfl
        · intro t' h; rfl
        · intro h; rfl

/-- C6 witness: a provider that would reject at 20000 ms (past the 15000 ms
timeout) still yields an `ok` result. -/
theorem tryAIInpainting_never_throws_witness :
    ∃ out : TryInpaintingOutcome,
      tryAIInpainting true (ProviderOutcome.rejected 20000 "network failure") =
        Except.ok out ∧
      out.timeMs ≤ 15000 ∧
      out.timeMs ≤ max (ProviderOutcome.rejected 20000 "network failure").settleTime 15000 ∧
      (∀ t m, ProviderOutcome.rejected 20000 "network failure" =
        ProviderOutcome.rejected t m → out.result = none) ∧
      (∀ t, ProviderOutcome.rejected 20000 "network failure" =
        ProviderOutcome.resolved t none → out.result = none) ∧
      (15000 ≤ (ProviderOutcome.rejected 20000 "network failure").settleTime →
        out.result = none) :=
  tryAIInpainting_never_throws true (ProviderOutcome.rejected 20000 "network failure")

/-- C7: if the cancellation token is set before workflow stage `N` begins
(and the polls before earlier stages saw it unset), the run executes
exactly the stages before `N`, terminates with the `Cancelled` outcome, and
that outcome differs from every `Failed` outcome. -/
theorem workflow_cancellation_stops_stages (p : ProcessingParameters) (ow oh : ℤ)
    (cancelAt : ℕ → Bool) (exportLen : ℕ) (N : ℕ) (hN : N ≤ 4)
    (hcancel : cancelAt N = true) (hbefore : ∀ k, k < N → cancelAt k = false) :
    (processImageWithNewWorkflow p ow oh cancelAt exportLen).1 = RunOutcome.cancelled ∧
    (processImageWithNewWorkflow p ow oh cancelAt exportLen).2 = stageOrder.take N ∧
    ∀ msg, (processImageWithNewWorkflow p ow oh cancelAt exportLen).1 ≠
      RunOutcome.failed msg := by
  interval_cases N
  · refine ⟨?_, ?_, ?_⟩ <;>
      simp [processImageWithNewWorkflow, hcancel, stageOrder]
  · have h0 := hbefore 0 (by omega)
    refine ⟨?_, ?_, ?_⟩ <;>
      simp [processImageWithNewWorkflow, h0, hcancel, stageOrder]
  · have h0 := hbefore 0 (by omega)
    have h1 := hbefore 1 (by omega)
    refine ⟨?_, ?_, ?_⟩ <;>
      simp [processImageWithNewWorkflow, h0, h1, hcancel, stageOrder]
  · have h0 := hbefore 0 (by omega)
    have h1 := hbefore 1 (by omega)
    have h2 := hbefore 2 (by omega)
    refine ⟨?_, ?_, ?_⟩ <;>
      simp [processImageWithNewWorkflow, h0, h1, h2, hcancel, stageOrder]
  · have h0 := hbefore 0 (by omega)
    have h1 := hbefore 1 (by omega)
    have h2 := hbefore 2 (by omega)
    have h3 := hbefore 3 (by omega)
    refine ⟨?_, ?_, ?_⟩ <;>
      simp [processImageWithNewWorkflow, h0, h1, h2, h3, hcancel, stageOrder]

/-- C7 witness: cancelling before stage 2 (the cut-line stage) leaves
exactly the positioning and bleed-fill stages executed and yields the
cancelled outcome. -/
theorem workflow_cancellation_stops_stages_witness :
    ((2:ℕ) ≤ 4 ∧ (fun k => decide (2 ≤ k)) 2 = true ∧
      (∀ k, k < 2 → (fun k => decide (2 ≤ k)) k = false)) ∧
    ((processImageWithNewWorkflow ⟨85, 55, 2, 300⟩ 300 200 (fun k => decide (2 ≤ k)) 2000).1 =
       RunOutcome.cancelled ∧
     (processImageWithNewWorkflow ⟨85, 55, 2, 300⟩ 300 200 (fun k => decide (2 ≤ k)) 2000).2 =
       stageOrder.take 2 ∧
     ∀ msg, (processImageWithNewWorkflow ⟨85, 55, 2, 300⟩ 300 200 (fun k => decide (2 ≤ k)) 2000).1 ≠
       RunOutcome.failed msg) :=
  ⟨⟨by decide, by decide, by decide⟩,
   workflow_cancellation_stops_stages ⟨85, 55, 2, 300⟩ 300 200 (fun k => decide (2 ≤ k)) 2000 2
     (by decide) (by decide) (by decide)⟩

/-- C9 counterexample: when the primary PDF assembly fails, the export's
"ultimate fallback" resolves the raw 500-byte image blob even though 500 is
below the 1000-byte sanity threshold — the export does not always reject
sub-threshold output. -/
theorem export_resolves_below_threshold :
    createPDFFromProcessedImage
      { imageLoads := true, dataUrlLen := 2000, imageBytes := 500,
        primaryAssemblyOk := false, fallbackFetchOk := true,
        headerLen := 700, footerLen := 300 } = Except.ok 500 ∧ 500 < 1000 :=
  ⟨rfl, by decide⟩

/-- C9 (amended): the export rejects sub-threshold output on its primary
paths — a data URL under 1000 characters is rejected as too small, and a
primary PDF assembly under 1000 bytes is never resolved as such — but a
sub-threshold resolution can still occur through the unchecked ultimate
fallback, which resolves the raw image bytes whenever the primary assembly
fails or the assembled PDF is under the threshold. -/
theorem export_threshold_checks (env : ExportEnv) :
    (∀ n, createPDFFromProcessedImage env = Except.ok n → n < 1000 →
      (¬ env.primaryAssemblyOk ∨ env.pdfSize < 1000) ∧ n = env.imageBytes) ∧
    (env.imageLoads → ¬ env.dataUrlLen < 1000 → env.primaryAssemblyOk →
      ¬ env.pdfSize < 1000 →
      createPDFFromProcessedImage env = Except.ok env.pdfSize) ∧
    (env.imageLoads → env.dataUrlLen < 1000 →
      createPDFFromProcessedImage env =
        Except.error "Generated image data is too small, likely empty") := by
  refine ⟨?_, ?_, ?_⟩
  · intro n hok hlt
    unfold createPDFFromProcessedImage exportFallback at hok
    split at hok
    · cases hok
    · split at hok
      · cases hok
      · split at hok
        · split at hok
          · split at hok
            · cases hok
              exact ⟨Or.inr (by assumption), rfl⟩
            · cases hok
          · cases hok
            omega
        · split at hok
          · cases hok
            exact ⟨Or.inl (by assumption), rfl⟩
          · cases hok
  · intro hload hurl hok hsize
    unfold createPDFFromProcessedImage
    simp [hload, hurl, hok, hsize]
  · intro hload hurl
    unfold createPDFFromProcessedImage
    simp [hload, hurl]

/-- C9 amendment witness: the amended export theorem at an environment whose
primary assembly succeeds with a 2000-byte PDF. -/
theorem export_threshold_checks_witness :
    ((3000:ℕ) < 1000 → False) ∧
    (createPDFFromProcessedImage
      { imageLoads := true, dataUrlLen := 3000, imageBytes := 1000,
        primaryAssemblyOk := true, fallbackFetchOk := true,
        headerLen := 700, footerLen := 300 } = Except.ok 2000 ∧ ¬ (2000:ℕ) < 1000) :=
  ⟨by decide,
   ((export_threshold_checks
      { imageLoads := true, dataUrlLen := 3000, imageBytes := 1000,
        primaryAssemblyOk := true, fallbackFetchOk := true,
        headerLen := 700, footerLen := 300 }).2.1
      (by decide) (by decide) (by decide) (by decide)),
   by decide⟩

/-- C1: for every valid set of parameters, a completed workflow run
allocates (and reports in `ProcessingResult.finalDimensions`) a canvas of
width `round(finalWidthMm·dpi/25.4) + 2·round(bleedMarginMm·dpi/25.4)` and
height `round(finalHeightMm·dpi/25.4) + 2·round(bleedMarginMm·dpi/25.4)`
exactly (with `round` the JavaScript half-up rounding and `25.4 = 127/5`). -/
theorem workflow_canvas_dimensions (p : ProcessingParameters) (ow oh : ℤ)
    (cancelAt : ℕ → Bool) (exportLen : ℕ) (result : ProcessingResult)
    (hvalid : ValidParameters p)
    (hrun : (processImageWithNewWorkflow p ow oh cancelAt exportLen).1 =
      RunOutcome.completed result) :
    result.finalDimensions.width =
      jsRound (p.finalWidthMm * p.dpi / (127/5)) +
        2 * jsRound (p.bleedMarginMm * p.dpi / (127/5)) ∧
    result.finalDimensions.height =
      jsRound (p.finalHeightMm * p.dpi / (127/5)) +
        2 * jsRound (p.bleedMarginMm * p.dpi / (127/5)) := by
  unfold processImageWithNewWorkflow at hrun
  split at hrun
  · cases hrun
  · split at hrun
    · cases hrun
    · split at hrun
      · cases hrun
      · split at hrun
        · cases hrun
        · split at hrun
          · cases hrun
          · split at hrun
            · cases hrun
            · cases hrun
              unfold mmToPixels
              dsimp only
              constructor <;> ring

/-- C1 witness: scenario A of the spec — 85 × 55 mm, 2 mm bleed, 300 dpi —
completes with a 1052 × 698 px canvas, matching the rounding formula. -/
theorem workflow_canvas_dimensions_witness :
    ValidParameters ⟨85, 55, 2, 300⟩ ∧
    (processImageWithNewWorkflow ⟨85, 55, 2, 300⟩ 300 200 (fun _ => false) 2000).1 =
      RunOutcome.completed
        { originalDimensions := { width := 300, height := 200 }
          finalDimensions := { width := 1052, height := 698 }
          appliedBleed := 2 } ∧
    ((1052 : ℤ) =
      jsRound ((85 : ℚ) * 300 / (127/5)) + 2 * jsRound ((2 : ℚ) * 300 / (127/5)) ∧
     (698 : ℤ) =
      jsRound ((55 : ℚ) * 300 / (127/5)) + 2 * jsRound ((2 : ℚ) * 300 / (127/5))) := by
  have hvalid : ValidParameters ⟨85, 55, 2, 300⟩ := by
    constructor
    · decide
    constructor
    · decide
    constructor
    · decide
    · right; rfl
  have hrun : (processImageWithNewWorkflow ⟨85, 55, 2, 300⟩ 300 200 (fun _ => false) 2000).1 =
      RunOutcome.completed
        { originalDimensions := { width := 300, height := 200 }
          finalDimensions := { width := 1052, height := 698 }
          appliedBleed := 2 } := by
    unfold processImageWithNewWorkflow mmToPixels jsRound
    norm_num
  exact ⟨hvalid, hrun,
    workflow_canvas_dimensions ⟨85, 55, 2, 300⟩ 300 200 (fun _ => false) 2000 _ hvalid hrun⟩

/-! ### Helper lemmas for the fallback-fill model -/

theorem sqDist_nonneg (x y cx cy : ℕ) : 0 ≤ sqDist x y cx cy :=
  add_nonneg (mul_self_nonneg _) (mul_self_nonneg _)

theorem findNearest_go_spec (x y : ℕ) (pts : List (ℕ × ℕ)) :
    ∀ q : ℕ × ℕ,
      ∃ c, findNearest x y pts (some (q, sqDist x y q.1 q.2)) = some c ∧
        (c = q ∨ c ∈ pts) ∧
        sqDist x y c.1 c.2 ≤ sqDist x y q.1 q.2 ∧
        ∀ r ∈ pts, sqDist x y c.1 c.2 ≤ sqDist x y r.1 r.2 := by
  induction pts with
  | nil =>
    intro q
    exact ⟨q, rfl, Or.inl rfl, le_refl _, by simp⟩
  | cons p rest ih =>
    intro q
    by_cases hlt : sqDist x y p.1 p.2 < sqDist x y q.1 q.2
    · by_cases hz : sqDist x y p.1 p.2 = 0
      · refine ⟨p, ?_, Or.inr (List.mem_cons_self _ _), le_of_lt hlt, ?_⟩
        · simp only [findNearest]
          rw [if_pos hlt, if_pos hz]
        · intro r hr
          rw [hz]
          exact sqDist_nonneg x y r.1 r.2
      · obtain ⟨c, hc, hmem, hle, hmin⟩ := ih p
        refine ⟨c, ?_, ?_, le_trans hle (le_of_lt hlt), ?_⟩
        · simp only [findNearest]
          rw [if_pos hlt, if_neg hz]
          exact hc
        · rcases hmem with rfl | h
          · exact Or.inr (List.mem_cons_self _ _)
          · exact Or.inr (List.mem_cons_of_mem _ h)
        · intro r hr
          rcases List.mem_cons.mp hr with rfl | h
          · exact hle
          · exact hmin r h
    · obtain ⟨c, hc, hmem, hle, hmin⟩ := ih q
      refine ⟨c, ?_, ?_, hle, ?_⟩
      · simp only [findNearest]
        rw [if_neg hlt]
        exact hc
      · rcases hmem with rfl | h
        · exact Or.inl rfl
        · exact Or.inr (List.mem_cons_of_mem _ h)
      · intro r hr
        rcases List.mem_cons.mp hr with rfl | h
        · exact le_trans hle (not_lt.mp hlt)
        · exact hmin r h

theorem findNearest_spec (x y : ℕ) (pts : List (ℕ × ℕ)) (hne : pts ≠ []) :
    ∃ c, findNearest x y pts none = some c ∧ c ∈ pts ∧
      ∀ r ∈ pts, sqDist x y c.1 c.2 ≤ sqDist x y r.1 r.2 := by
  cases pts with
  | nil => exact absurd rfl hne
  | cons p rest =>
    by_cases hz : sqDist x y p.1 p.2 = 0
    · refine ⟨p, ?_, List.mem_cons_self _ _, ?_⟩
      · simp only [findNearest]
        rw [if_pos hz]
      · intro r hr
        rw [hz]
        exact sqDist_nonneg x y r.1 r.2
    · obtain ⟨c, hc, hmem, hle, hmin⟩ := findNearest_go_spec x y rest p
      refine ⟨c, ?_, ?_, ?_⟩
      · simp only [findNearest]
        rw [if_neg hz]
        exact hc
      · rcases hmem with rfl | h
        · exact List.mem_cons_self _ _
        · exact List.mem_cons_of_mem _ h
      · intro r hr
        rcases List.mem_cons.mp hr with rfl | h
        · exact hle
        · exact hmin r h

theorem findNearest_mem {x y : ℕ} {pts : List (ℕ × ℕ)} {c : ℕ × ℕ}
    (h : findNearest x y pts none = some c) : c ∈ pts := by
  cases pts with
  | nil => cases h
  | cons p rest =>
    obtain ⟨c2, hc2, hmem, _⟩ := findNearest_spec x y (p :: rest) (by simp)
    rw [h] at hc2
    cases hc2
    exact hmem

theorem findNearest_isSome {x y : ℕ} {pts : List (ℕ × ℕ)} (hne : pts ≠ []) :
    (findNearest x y pts none).isSome = true := by
  obtain ⟨c, hc, _, _⟩ := findNearest_spec x y pts hne
  rw [hc]
  rfl

theorem rowMajor_inj {w x y x2 y2 : ℕ} (hx : x < w) (hx2 : x2 < w)
    (h : y * w + x = y2 * w + x2) : x = x2 ∧ y = y2 := by
  have hw : 0 < w := by omega
  have h1 : (w * y + x) % w = (w * y2 + x2) % w := by
    rw [mul_comm w y, mul_comm w y2, h]
  rw [Nat.mul_add_mod, Nat.mul_add_mod, Nat.mod_eq_of_lt hx, Nat.mod_eq_of_lt hx2] at h1
  subst h1
  refine ⟨rfl, ?_⟩
  have h2 : y * w = y2 * w := by omega
  exact Nat.eq_of_mul_eq_mul_right hw h2

theorem pixIdx_block_ne {w x y x2 y2 j k : ℕ} (hx : x < w) (hx2 : x2 < w)
    (hne : ¬(x = x2 ∧ y = y2)) (hj : j < 4) (hk : k < 4) :
    pixIdx w x y + j ≠ pixIdx w x2 y2 + k := by
  unfold pixIdx
  intro h
  have hlin : y * w + x = y2 * w + x2 := by omega
  exact hne (rowMajor_inj hx hx2 hlin)

theorem isBleedWhite_congr {d d2 : ℕ → ℕ} (w b fw fh x y : ℕ)
    (h : ∀ j, j < 4 → d (pixIdx w x y + j) = d2 (pixIdx w x y + j)) :
    isBleedWhite d w b fw fh x y = isBleedWhite d2 w b fw fh x y := by
  have h0 := h 0 (by omega)
  have h1 := h 1 (by omega)
  have h2 := h 2 (by omega)
  have h3 := h 3 (by omega)
  rw [Nat.add_zero] at h0
  unfold isBleedWhite
  split
  · dsimp only
    rw [h0, h1, h2, h3]
  · rfl

theorem isBleedWhite_outside {d : ℕ → ℕ} {w b fw fh x y : ℕ}
    (h : isBleedWhite d w b fw fh x y = true) :
    x < b ∨ b + fw ≤ x ∨ y < b ∨ b + fh ≤ y := by
  unfold isBleedWhite at h
  by_contra hin
  rw [if_neg hin] at h
  cases h

theorem isBleedWhite_inside {d : ℕ → ℕ} {w b fw fh x y : ℕ}
    (h : ¬(x < b ∨ b + fw ≤ x ∨ y < b ∨ b + fh ≤ y)) :
    isBleedWhite d w b fw fh x y = false := by
  unfold isBleedWhite
  rw [if_neg h]

theorem isContentPixel_congr {d d2 : ℕ → ℕ} (w x y : ℕ)
    (h : ∀ j, j < 4 → d (pixIdx w x y + j) = d2 (pixIdx w x y + j)) :
    isContentPixel d w x y = isContentPixel d2 w x y := by
  have h0 := h 0 (by omega)
  have h1 := h 1 (by omega)
  have h2 := h 2 (by omega)
  have h3 := h 3 (by omega)
  rw [Nat.add_zero] at h0
  unfold isContentPixel
  dsimp only
  rw [h0, h1, h2, h3]

theorem mem_contentPixels {d : ℕ → ℕ} {w b fw fh : ℕ} {c : ℕ × ℕ} :
    c ∈ contentPixels d w b fw fh ↔
      b ≤ c.1 ∧ c.1 < b + fw ∧ b ≤ c.2 ∧ c.2 < b + fh ∧
      isContentPixel d w c.1 c.2 = true := by
  unfold contentPixels
  simp only [List.mem_flatMap, List.mem_filterMap, List.mem_range]
  constructor
  · rintro ⟨dy, hdy, dx, hdx, hif⟩
    split at hif
    · cases hif
      exact ⟨by omega, by omega, by omega, by omega, by assumption⟩
    · cases hif
  · rintro ⟨h1, h2, h3, h4, h5⟩
    refine ⟨c.2 - b, by omega, c.1 - b, by omega, ?_⟩
    have hx : b + (c.1 - b) = c.1 := by omega
    have hy : b + (c.2 - b) = c.2 := by omega
    rw [hx, hy, if_pos h5]

theorem contentPixels_congr {d d2 : ℕ → ℕ} (w b fw fh : ℕ)
    (h : ∀ x y, b ≤ x → x < b + fw → b ≤ y → y < b + fh →
      ∀ j, j < 4 → d (pixIdx w x y + j) = d2 (pixIdx w x y + j)) :
    contentPixels d w b fw fh = contentPixels d2 w b fw fh := by
  unfold contentPixels
  apply List.flatMap_congr
  intro dy hdy
  apply List.filterMap_congr
  intro dx hdx
  rw [List.mem_range] at hdy hdx
  dsimp only
  rw [isContentPixel_congr w (b + dx) (b + dy)
    (h (b + dx) (b + dy) (by omega) (by omega) (by omega) (by omega))]

theorem mem_allCoords {w h : ℕ} {p : ℕ × ℕ} :
    p ∈ allCoords w h ↔ p.1 < w ∧ p.2 < h := by
  unfold allCoords
  simp only [List.mem_flatMap, List.mem_map, List.mem_range]
  constructor
  · rintro ⟨y, hy, x, hx, rfl⟩
    exact ⟨hx, hy⟩
  · rintro ⟨h1, h2⟩
    exact ⟨p.2, h2, p.1, h1, rfl⟩

theorem allCoords_nodup (w h : ℕ) : (allCoords w h).Nodup := by
  unfold allCoords
  rw [List.nodup_flatMap]
  constructor
  · intro y hy
    exact (List.nodup_range w).map fun a a2 hab => by
      cases hab
      rfl
  · refine (List.pairwise_lt_range h).imp ?_
    intro y y2 hlt
    intro a ha ha2
    rw [List.mem_map] at ha ha2
    obtain ⟨x, _, rfl⟩ := ha
    obtain ⟨x2, _, he⟩ := ha2
    cases he
    omega

theorem fillStep_skip {w b fw fh : ℕ} {pts : List (ℕ × ℕ)} {s : FillState} {xy : ℕ × ℕ}
    (h : isBleedWhite s.data w b fw fh xy.1 xy.2 = false) :
    fillStep w b fw fh pts s xy = s := by
  unfold fillStep
  rw [h]
  rfl

theorem fillStep_none {w b fw fh : ℕ} {pts : List (ℕ × ℕ)} {s : FillState} {xy : ℕ × ℕ}
    (hfn : findNearest xy.1 xy.2 pts none = none) :
    fillStep w b fw fh pts s xy = s := by
  unfold fillStep
  split
  · rw [hfn]
  · rfl

theorem fillStep_data_outside {w b fw fh : ℕ} {pts : List (ℕ × ℕ)} {s : FillState}
    {xy : ℕ × ℕ} {i : ℕ} (hi : ∀ j, j < 4 → i ≠ pixIdx w xy.1 xy.2 + j) :
    (fillStep w b fw fh pts s xy).data i = s.data i := by
  have h0 := hi 0 (by omega)
  have h1 := hi 1 (by omega)
  have h2 := hi 2 (by omega)
  have h3 := hi 3 (by omega)
  rw [Nat.add_zero] at h0
  unfold fillStep
  split
  · cases hfn : findNearest xy.1 xy.2 pts none with
    | some c =>
      dsimp only
      rw [if_neg h0, if_neg h1, if_neg h2, if_neg h3]
    | none => rfl
  · rfl

theorem fillStep_data_write {w b fw fh : ℕ} {pts : List (ℕ × ℕ)} {s : FillState}
    {xy : ℕ × ℕ} {c : ℕ × ℕ}
    (hbw : isBleedWhite s.data w b fw fh xy.1 xy.2 = true)
    (hfn : findNearest xy.1 xy.2 pts none = some c) :
    ∀ j, j < 4 →
      (fillStep w b fw fh pts s xy).data (pixIdx w xy.1 xy.2 + j) =
        s.data (pixIdx w c.1 c.2 + j) := by
  intro j hj
  unfold fillStep
  rw [hbw, if_pos rfl, hfn]
  dsimp only
  have ne1 : pixIdx w xy.1 xy.2 + 1 ≠ pixIdx w xy.1 xy.2 := by omega
  have ne2 : pixIdx w xy.1 xy.2 + 2 ≠ pixIdx w xy.1 xy.2 := by omega
  have ne21 : pixIdx w xy.1 xy.2 + 2 ≠ pixIdx w xy.1 xy.2 + 1 := by omega
  have ne3 : pixIdx w xy.1 xy.2 + 3 ≠ pixIdx w xy.1 xy.2 := by omega
  have ne31 : pixIdx w xy.1 xy.2 + 3 ≠ pixIdx w xy.1 xy.2 + 1 := by omega
  have ne32 : pixIdx w xy.1 xy.2 + 3 ≠ pixIdx w xy.1 xy.2 + 2 := by omega
  interval_cases j
  · rw [if_pos (Nat.add_zero _)]
    rfl
  · rw [if_neg ne1, if_pos rfl]
  · rw [if_neg ne2, if_neg ne21, if_pos rfl]
  · rw [if_neg ne3, if_neg ne31, if_neg ne32, if_pos rfl]

theorem fillStep_filled_write {w b fw fh : ℕ} {pts : List (ℕ × ℕ)} {s : FillState}
    {xy : ℕ × ℕ} {c : ℕ × ℕ}
    (hbw : isBleedWhite s.data w b fw fh xy.1 xy.2 = true)
    (hfn : findNearest xy.1 xy.2 pts none = some c) :
    (fillStep w b fw fh pts s xy).filled = s.filled + 1 := by
  unfold fillStep
  rw [hbw, if_pos rfl, hfn]

/-- The main double loop of `finalFillBleedFromEdge`, characterized over an
arbitrary duplicate-free coordinate list: untouched indices keep their
bytes, every visited pixel that was bleed-white in the original buffer
receives the bytes of its nearest content pixel, every other visited pixel
is unchanged, and the fill counter counts exactly the visited bleed-white
pixels with an available nearest content pixel. -/
theorem fillLoop_spec (w b fw fh : ℕ) (d0 : ℕ → ℕ) (pts : List (ℕ × ℕ))
    (hpts : ∀ c ∈ pts, (b ≤ c.1 ∧ c.1 < b + fw ∧ b ≤ c.2 ∧ c.2 < b + fh) ∧ c.1 < w) :
    ∀ (coords : List (ℕ × ℕ)) (s : FillState),
      coords.Nodup →
      (∀ q ∈ coords, q.1 < w) →
      (∀ c ∈ pts, ∀ j, j < 4 → s.data (pixIdx w c.1 c.2 + j) = d0 (pixIdx w c.1 c.2 + j)) →
      (∀ q ∈ coords, ∀ j, j < 4 → s.data (pixIdx w q.1 q.2 + j) = d0 (pixIdx w q.1 q.2 + j)) →
      (∀ i, (∀ q ∈ coords, ∀ j, j < 4 → i ≠ pixIdx w q.1 q.2 + j) →
        (coords.foldl (fillStep w b fw fh pts) s).data i = s.data i) ∧
      (∀ q ∈ coords,
        (isBleedWhite d0 w b fw fh q.1 q.2 = true →
          ∀ j, j < 4 →
            (coords.foldl (fillStep w b fw fh pts) s).data (pixIdx w q.1 q.2 + j) =
              (match findNearest q.1 q.2 pts none with
               | some c => d0 (pixIdx w c.1 c.2 + j)
               | none => d0 (pixIdx w q.1 q.2 + j))) ∧
        (isBleedWhite d0 w b fw fh q.1 q.2 = false →
          ∀ j, j < 4 →
            (coords.foldl (fillStep w b fw fh pts) s).data (pixIdx w q.1 q.2 + j) =
              d0 (pixIdx w q.1 q.2 + j))) ∧
      (coords.foldl (fillStep w b fw fh pts) s).filled =
        s.filled + coords.countP
          (fun q => isBleedWhite d0 w b fw fh q.1 q.2 &&
            (findNearest q.1 q.2 pts none).isSome) := by
  intro coords
  induction coords with
  | nil =>
    intro s _ _ _ _
    refine ⟨fun i _ => rfl, fun q hq => absurd hq (List.not_mem_nil q), ?_⟩
    simp [List.countP_nil]
  | cons q rest ih =>
    intro s hnodup hbound hcontent hfresh
    have hqw : q.1 < w := hbound q (List.mem_cons_self _ _)
    have hqfresh : ∀ j, j < 4 → s.data (pixIdx w q.1 q.2 + j) = d0 (pixIdx w q.1 q.2 + j) :=
      hfresh q (List.mem_cons_self _ _)
    have hBW : isBleedWhite s.data w b fw fh q.1 q.2 = isBleedWhite d0 w b fw fh q.1 q.2 :=
      isBleedWhite_congr w b fw fh q.1 q.2 hqfresh
    have hq_notin : q ∉ rest := (List.nodup_cons.mp hnodup).1
    have hrest_nodup : rest.Nodup := (List.nodup_cons.mp hnodup).2
    have hrest_bound : ∀ r ∈ rest, r.1 < w :=
      fun r hr => hbound r (List.mem_cons_of_mem _ hr)
    have hq_rest_disj : ∀ r ∈ rest, ∀ j k : ℕ, j < 4 → k < 4 →
        pixIdx w q.1 q.2 + j ≠ pixIdx w r.1 r.2 + k := by
      intro r hr j k hj hk
      refine pixIdx_block_ne hqw (hrest_bound r hr) ?_ hj hk
      intro ⟨he1, he2⟩
      exact hq_notin (by
        have : q = r := Prod.ext he1 he2
        rw [this]
        exact hr)
    have hfold : (q :: rest).foldl (fillStep w b fw fh pts) s =
        rest.foldl (fillStep w b fw fh pts) (fillStep w b fw fh pts s q) := rfl
    cases hbw : isBleedWhite d0 w b fw fh q.1 q.2 with
    | false =>
      have hskip : fillStep w b fw fh pts s q = s := fillStep_skip (by rw [hBW, hbw])
      rw [hfold, hskip]
      obtain ⟨ih1, ih2, ih3⟩ := ih s hrest_nodup hrest_bound hcontent
        (fun r hr => hfresh r (List.mem_cons_of_mem _ hr))
      refine ⟨?_, ?_, ?_⟩
      · intro i hi
        exact ih1 i fun r hr => hi r (List.mem_cons_of_mem _ hr)
      · intro r hr
        rcases List.mem_cons.mp hr with rfl | hr2
        · refine ⟨?_, ?_⟩
          · intro habs
            rw [habs] at hbw
            cases hbw
          · intro _ j hj
            have hval := ih1 (pixIdx w r.1 r.2 + j)
              (fun r2 hr2 k hk => hq_rest_disj r2 hr2 j k hj hk)
            rw [hval]
            exact hqfresh j hj
        · exact ih2 r hr2
      · rw [ih3, List.countP_cons]
        have : (isBleedWhite d0 w b fw fh q.1 q.2 &&
            (findNearest q.1 q.2 pts none).isSome) = false := by
          rw [hbw]
          rfl
        rw [this]
        simp
    | true =>
      cases hfn : findNearest q.1 q.2 pts none with
      | none =>
        have hskip : fillStep w b fw fh pts s q = s := fillStep_none hfn
        rw [hfold, hskip]
        obtain ⟨ih1, ih2, ih3⟩ := ih s hrest_nodup hrest_bound hcontent
          (fun r hr => hfresh r (List.mem_cons_of_mem _ hr))
        refine ⟨?_, ?_, ?_⟩
        · intro i hi
          exact ih1 i fun r hr => hi r (List.mem_cons_of_mem _ hr)
        · intro r hr
          rcases List.mem_cons.mp hr with rfl | hr2
          · refine ⟨?_, ?_⟩
            · intro _ j hj
              rw [hfn]
              have hval := ih1 (pixIdx w r.1 r.2 + j)
                (fun r2 hr2 k hk => hq_rest_disj r2 hr2 j k hj hk)
              rw [hval]
              exact hqfresh j hj
            · intro habs
              rw [habs] at hbw
              cases hbw
          · exact ih2 r hr2
        · rw [ih3, List.countP_cons]
          have : (isBleedWhite d0 w b fw fh q.1 q.2 &&
              (findNearest q.1 q.2 pts none).isSome) = false := by
            rw [hbw, hfn]
            rfl
          rw [this]
          simp
      | some c =>
        have hc_mem : c ∈ pts := findNearest_mem hfn
        have hc_in := (hpts c hc_mem).1
        have hc_w := (hpts c hc_mem).2
        have hq_out : q.1 < b ∨ b + fw ≤ q.1 ∨ q.2 < b ∨ b + fh ≤ q.2 :=
          isBleedWhite_outside (by rw [hBW]; exact hbw)
        have hqc_ne : ¬(q.1 = c.1 ∧ q.2 = c.2) := by
          intro ⟨he1, he2⟩
          omega
        have hq_c_disj : ∀ j k : ℕ, j < 4 → k < 4 →
            pixIdx w q.1 q.2 + j ≠ pixIdx w c.1 c.2 + k :=
          fun j k hj hk => pixIdx_block_ne hqw hc_w hqc_ne hj hk
        set s1 := fillStep w b fw fh pts s q with hs1
        have hs1_write : ∀ j, j < 4 →
            s1.data (pixIdx w q.1 q.2 + j) = d0 (pixIdx w c.1 c.2 + j) := by
          intro j hj
          rw [hs1, fillStep_data_write (by rw [hBW]; exact hbw) hfn j hj]
          exact hcontent c hc_mem j hj
        have hs1_outside : ∀ i, (∀ j, j < 4 → i ≠ pixIdx w q.1 q.2 + j) →
            s1.data i = s.data i := by
          intro i hi
          rw [hs1]
          exact fillStep_data_outside hi
        have hs1_filled : s1.filled = s.filled + 1 := by
          rw [hs1]
          exact fillStep_filled_write (by rw [hBW]; exact hbw) hfn
        have hs1_content : ∀ c2 ∈ pts, ∀ j, j < 4 →
            s1.data (pixIdx w c2.1 c2.2 + j) = d0 (pixIdx w c2.1 c2.2 + j) := by
          intro c2 hc2 j hj
          have hc2_in := (hpts c2 hc2).1
          have hc2_w := (hpts c2 hc2).2
          rw [hs1_outside (pixIdx w c2.1 c2.2 + j) ?_]
          · exact hcontent c2 hc2 j hj
          · intro k hk
            refine (pixIdx_block_ne hc2_w hqw ?_ hj hk).symm ∘ Eq.symm
            intro ⟨he1, he2⟩
            omega
        have hs1_fresh : ∀ r ∈ rest, ∀ j, j < 4 →
            s1.data (pixIdx w r.1 r.2 + j) = d0 (pixIdx w r.1 r.2 + j) := by
          intro r hr j hj
          rw [hs1_outside (pixIdx w r.1 r.2 + j) ?_]
          · exact hfresh r (List.mem_cons_of_mem _ hr) j hj
          · intro k hk
            exact fun he => hq_rest_disj r hr k j hk hj he.symm
        rw [hfold]
        obtain ⟨ih1, ih2, ih3⟩ := ih s1 hrest_nodup hrest_bound hs1_content hs1_fresh
        refine ⟨?_, ?_, ?_⟩
        · intro i hi
          rw [ih1 i fun r hr => hi r (List.mem_cons_of_mem _ hr)]
          exact hs1_outside i (hi q (List.mem_cons_self _ _))
        · intro r hr
          rcases List.mem_cons.mp hr with rfl | hr2
          · refine ⟨?_, ?_⟩
            · intro _ j hj
              rw [hfn]
              have hval := ih1 (pixIdx w r.1 r.2 + j)
                (fun r2 hr2 k hk => hq_rest_disj r2 hr2 j k hj hk)
              rw [hval]
              exact hs1_write j hj
            · intro habs
              rw [habs] at hbw
              cases hbw
          · exact ih2 r hr2
        · rw [ih3, hs1_filled, List.countP_cons]
          have : (isBleedWhite d0 w b fw fh q.1 q.2 &&
              (findNearest q.1 q.2 pts none).isSome) = true := by
            rw [hbw, hfn]
            rfl
          rw [this]
          simp
          omega

/-- `finalFillBleedFromEdge` with no content pixel returns the buffer
unchanged, with a zero fill count and the warning logged. -/
theorem finalFill_empty (b fw fh : ℕ) (d : ℕ → ℕ)
    (h : contentPixels d (fw + b * 2) b fw fh = []) :
    finalFillBleedFromEdge b fw fh d =
      { data := d, filled := 0, warnedNoContent := true } := by
  unfold finalFillBleedFromEdge
  rw [if_pos (by rw [h]; rfl)]

/-- The fold inside `finalFillBleedFromEdge`, specialized via
`fillLoop_spec` to the full-canvas coordinate enumeration and the initial
state holding the original buffer. -/
theorem finalFill_fold_spec (b fw fh : ℕ) (d : ℕ → ℕ) :
    (∀ q ∈ allCoords (fw + b * 2) (fh + b * 2),
      (isBleedWhite d (fw + b * 2) b fw fh q.1 q.2 = true →
        ∀ j, j < 4 →
          ((allCoords (fw + b * 2) (fh + b * 2)).foldl
              (fillStep (fw + b * 2) b fw fh (contentPixels d (fw + b * 2) b fw fh))
              { data := d, filled := 0 }).data (pixIdx (fw + b * 2) q.1 q.2 + j) =
            (match findNearest q.1 q.2 (contentPixels d (fw + b * 2) b fw fh) none with
             | some c => d (pixIdx (fw + b * 2) c.1 c.2 + j)
             | none => d (pixIdx (fw + b * 2) q.1 q.2 + j))) ∧
      (isBleedWhite d (fw + b * 2) b fw fh q.1 q.2 = false →
        ∀ j, j < 4 →
          ((allCoords (fw + b * 2) (fh + b * 2)).foldl
              (fillStep (fw + b * 2) b fw fh (contentPixels d (fw + b * 2) b fw fh))
              { data := d, filled := 0 }).data (pixIdx (fw + b * 2) q.1 q.2 + j) =
            d (pixIdx (fw + b * 2) q.1 q.2 + j))) ∧
    ((allCoords (fw + b * 2) (fh + b * 2)).foldl
        (fillStep (fw + b * 2) b fw fh (contentPixels d (fw + b * 2) b fw fh))
        { data := d, filled := 0 }).filled =
      (allCoords (fw + b * 2) (fh + b * 2)).countP
        (fun q => isBleedWhite d (fw + b * 2) b fw fh q.1 q.2 &&
          (findNearest q.1 q.2 (contentPixels d (fw + b * 2) b fw fh) none).isSome) := by
  have hpts : ∀ c ∈ contentPixels d (fw + b * 2) b fw fh,
      (b ≤ c.1 ∧ c.1 < b + fw ∧ b ≤ c.2 ∧ c.2 < b + fh) ∧ c.1 < fw + b * 2 := by
    intro c hc
    obtain ⟨h1, h2, h3, h4, _⟩ := mem_contentPixels.mp hc
    exact ⟨⟨h1, h2, h3, h4⟩, by omega⟩
  obtain ⟨c1, c2, c3⟩ := fillLoop_spec (fw + b * 2) b fw fh d
    (contentPixels d (fw + b * 2) b fw fh) hpts
    (allCoords (fw + b * 2) (fh + b * 2)) { data := d, filled := 0 }
    (allCoords_nodup _ _)
    (fun q hq => (mem_allCoords.mp hq).1)
    (fun c _ j _ => rfl)
    (fun q _ j _ => rfl)
  refine ⟨c2, ?_⟩
  rw [c3]
  dsimp only
  omega

/-- Pixels of `finalFillBleedFromEdge` that were not bleed-white keep their
bytes (no content-pixel hypothesis needed). -/
theorem finalFill_data_notwhite (b fw fh : ℕ) (d : ℕ → ℕ)
    (x y : ℕ) (hx : x < fw + b * 2) (hy : y < fh + b * 2)
    (hbw : isBleedWhite d (fw + b * 2) b fw fh x y = false) :
    ∀ j, j < 4 →
      (finalFillBleedFromEdge b fw fh d).data (pixIdx (fw + b * 2) x y + j) =
        d (pixIdx (fw + b * 2) x y + j) := by
  intro j hj
  by_cases hemp : contentPixels d (fw + b * 2) b fw fh = []
  · rw [finalFill_empty b fw fh d hemp]
  · obtain ⟨c2, _⟩ := finalFill_fold_spec b fw fh d
    unfold finalFillBleedFromEdge
    rw [if_neg (by simp [List.isEmpty_iff, hemp])]
    dsimp only
    split
    · rfl
    · exact (c2 (x, y) (mem_allCoords.mpr ⟨hx, hy⟩)).2 hbw j hj

/-- Each bleed-white pixel of `finalFillBleedFromEdge` receives, byte for
byte, the original RGBA of a content pixel at minimal squared Euclidean
distance (provided a content pixel exists). -/
theorem finalFill_data_white (b fw fh : ℕ) (d : ℕ → ℕ)
    (hne : contentPixels d (fw + b * 2) b fw fh ≠ [])
    (x y : ℕ) (hx : x < fw + b * 2) (hy : y < fh + b * 2)
    (hbw : isBleedWhite d (fw + b * 2) b fw fh x y = true) :
    ∃ c ∈ contentPixels d (fw + b * 2) b fw fh,
      (∀ r ∈ contentPixels d (fw + b * 2) b fw fh,
        sqDist x y c.1 c.2 ≤ sqDist x y r.1 r.2) ∧
      ∀ j, j < 4 →
        (finalFillBleedFromEdge b fw fh d).data (pixIdx (fw + b * 2) x y + j) =
          d (pixIdx (fw + b * 2) c.1 c.2 + j) := by
  obtain ⟨c2, c3⟩ := finalFill_fold_spec b fw fh d
  obtain ⟨c, hcfn, hcmem, hcmin⟩ := findNearest_spec x y _ hne
  refine ⟨c, hcmem, hcmin, ?_⟩
  intro j hj
  unfold finalFillBleedFromEdge
  rw [if_neg (by simp [List.isEmpty_iff, hne])]
  dsimp only
  have hmem : (x, y) ∈ allCoords (fw + b * 2) (fh + b * 2) := mem_allCoords.mpr ⟨hx, hy⟩
  split
  · exfalso
    rename_i hf
    rw [c3] at hf
    have hp : (isBleedWhite d (fw + b * 2) b fw fh (x, y).1 (x, y).2 &&
        (findNearest (x, y).1 (x, y).2 (contentPixels d (fw + b * 2) b fw fh) none).isSome) =
        true := by
      dsimp only
      rw [hbw, findNearest_isSome hne]
      rfl
    exact absurd hp (List.countP_eq_zero.mp hf (x, y) hmem)
  · have hval := (c2 (x, y) hmem).1 hbw j hj
    dsimp only at hval
    rw [hcfn] at hval
    exact hval

/-- After a run of `finalFillBleedFromEdge` with at least one content pixel,
no in-bounds pixel still tests bleed-white. -/
theorem finalFill_no_white_left (b fw fh : ℕ) (d : ℕ → ℕ)
    (hne : contentPixels d (fw + b * 2) b fw fh ≠ [])
    (x y : ℕ) (hx : x < fw + b * 2) (hy : y < fh + b * 2) :
    isBleedWhite (finalFillBleedFromEdge b fw fh d).data (fw + b * 2) b fw fh x y = false := by
  cases hbw : isBleedWhite d (fw + b * 2) b fw fh x y with
  | false =>
    rw [isBleedWhite_congr (fw + b * 2) b fw fh x y
      (finalFill_data_notwhite b fw fh d x y hx hy hbw)]
    exact hbw
  | true =>
    obtain ⟨c, hcmem, _, hcopy⟩ := finalFill_data_white b fw fh d hne x y hx hy hbw
    obtain ⟨_, _, _, _, hcp⟩ := mem_contentPixels.mp hcmem
    unfold isContentPixel at hcp
    rw [decide_eq_true_eq] at hcp
    have e0 := hcopy 0 (by omega)
    have e1 := hcopy 1 (by omega)
    have e2 := hcopy 2 (by omega)
    rw [Nat.add_zero] at e0
    unfold isBleedWhite
    split
    · dsimp only
      rw [e0, e1, e2]
      rw [decide_eq_false_iff_not]
      intro ⟨ha, hb2, hc2, _⟩
      exact hcp.1 ⟨ha, hb2, hc2⟩
    · rfl

/-- C2: whenever the final content rectangle holds at least one content
pixel, one run of `BleedFallbackFiller.finalFillBleedFromEdge` leaves no
bleed-ring pixel satisfying the near-white predicate, and every pixel that
was bleed-white receives byte-for-byte the RGBA of a content pixel at
minimal (squared) Euclidean distance; with no content pixel the call is a
no-op that logs the warning. -/
theorem finalFillBleedFromEdge_postcondition (b fw fh : ℕ) (d : ℕ → ℕ) :
    (contentPixels d (fw + b * 2) b fw fh ≠ [] →
      (∀ x y, x < fw + b * 2 → y < fh + b * 2 →
        isBleedWhite (finalFillBleedFromEdge b fw fh d).data (fw + b * 2) b fw fh x y =
          false) ∧
      (∀ x y, x < fw + b * 2 → y < fh + b * 2 →
        isBleedWhite d (fw + b * 2) b fw fh x y = true →
        ∃ c ∈ contentPixels d (fw + b * 2) b fw fh,
          (∀ r ∈ contentPixels d (fw + b * 2) b fw fh,
            sqDist x y c.1 c.2 ≤ sqDist x y r.1 r.2) ∧
          ∀ j, j < 4 →
            (finalFillBleedFromEdge b fw fh d).data (pixIdx (fw + b * 2) x y + j) =
              d (pixIdx (fw + b * 2) c.1 c.2 + j))) ∧
    (contentPixels d (fw + b * 2) b fw fh = [] →
      (∀ i, (finalFillBleedFromEdge b fw fh d).data i = d i) ∧
      (finalFillBleedFromEdge b fw fh d).warnedNoContent = true ∧
      (finalFillBleedFromEdge b fw fh d).filled = 0) := by
  constructor
  · intro hne
    exact ⟨fun x y hx hy => finalFill_no_white_left b fw fh d hne x y hx hy,
      fun x y hx hy hbw => finalFill_data_white b fw fh d hne x y hx hy hbw⟩
  · intro hemp
    rw [finalFill_empty b fw fh d hemp]
    exact ⟨fun i => rfl, rfl, rfl⟩

/-- C2 witness: on the 3 × 3 sample canvas (red center, white elsewhere)
there is a content pixel, so the postcondition theorem applies. -/
theorem finalFillBleedFromEdge_postcondition_witness :
    contentPixels sampleBuffer (1 + 1 * 2) 1 1 1 ≠ [] ∧
    ((∀ x y, x < 1 + 1 * 2 → y < 1 + 1 * 2 →
      isBleedWhite (finalFillBleedFromEdge 1 1 1 sampleBuffer).data (1 + 1 * 2) 1 1 1 x y =
        false) ∧
     (∀ x y, x < 1 + 1 * 2 → y < 1 + 1 * 2 →
      isBleedWhite sampleBuffer (1 + 1 * 2) 1 1 1 x y = true →
      ∃ c ∈ contentPixels sampleBuffer (1 + 1 * 2) 1 1 1,
        (∀ r ∈ contentPixels sampleBuffer (1 + 1 * 2) 1 1 1,
          sqDist x y c.1 c.2 ≤ sqDist x y r.1 r.2) ∧
        ∀ j, j < 4 →
          (finalFillBleedFromEdge 1 1 1 sampleBuffer).data (pixIdx (1 + 1 * 2) x y + j) =
            sampleBuffer (pixIdx (1 + 1 * 2) c.1 c.2 + j))) :=
  ⟨by decide, (finalFillBleedFromEdge_postcondition 1 1 1 sampleBuffer).1 (by decide)⟩

/-- C3: `finalFillBleedFromEdge` is idempotent — running it again on the
buffer produced by a first run performs zero pixel copies and leaves the
buffer byte-for-byte unchanged. -/
theorem finalFillBleedFromEdge_idempotent (b fw fh : ℕ) (d : ℕ → ℕ) :
    (finalFillBleedFromEdge b fw fh (finalFillBleedFromEdge b fw fh d).data).filled = 0 ∧
    ∀ i, (finalFillBleedFromEdge b fw fh (finalFillBleedFromEdge b fw fh d).data).data i =
      (finalFillBleedFromEdge b fw fh d).data i := by
  by_cases hemp : contentPixels d (fw + b * 2) b fw fh = []
  · have h1 : finalFillBleedFromEdge b fw fh d =
        { data := d, filled := 0, warnedNoContent := true } := finalFill_empty b fw fh d hemp
    rw [h1]
    rw [finalFill_empty b fw fh d hemp]
    exact ⟨rfl, fun i => rfl⟩
  · set r1 := finalFillBleedFromEdge b fw fh d with hr1
    have hpres : ∀ x y, b ≤ x → x < b + fw → b ≤ y → y < b + fh →
        ∀ j, j < 4 →
          r1.data (pixIdx (fw + b * 2) x y + j) = d (pixIdx (fw + b * 2) x y + j) := by
      intro x y h1 h2 h3 h4 j hj
      exact finalFill_data_notwhite b fw fh d x y (by omega) (by omega)
        (isBleedWhite_inside (by omega)) j hj
    have hpts2 : contentPixels r1.data (fw + b * 2) b fw fh =
        contentPixels d (fw + b * 2) b fw fh :=
      contentPixels_congr (fw + b * 2) b fw fh hpres
    have hne2 : contentPixels r1.data (fw + b * 2) b fw fh ≠ [] := by
      rw [hpts2]
      exact hemp
    obtain ⟨_, c3⟩ := finalFill_fold_spec b fw fh r1.data
    have hcount : (allCoords (fw + b * 2) (fh + b * 2)).countP
        (fun q => isBleedWhite r1.data (fw + b * 2) b fw fh q.1 q.2 &&
          (findNearest q.1 q.2
            (contentPixels r1.data (fw + b * 2) b fw fh) none).isSome) = 0 := by
      refine List.countP_eq_zero.mpr ?_
      intro q hq
      obtain ⟨hq1, hq2⟩ := mem_allCoords.mp hq
      have hnw : isBleedWhite r1.data (fw + b * 2) b fw fh q.1 q.2 = false :=
        finalFill_no_white_left b fw fh d hemp q.1 q.2 hq1 hq2
      rw [hnw]
      simp
    constructor
    · unfold finalFillBleedFromEdge
      rw [if_neg (by simp [List.isEmpty_iff, hne2])]
      dsimp only
      rw [c3, hcount]
    · intro i
      unfold finalFillBleedFromEdge
      rw [if_neg (by simp [List.isEmpty_iff, hne2])]
      dsimp only
      rw [if_pos (by rw [c3, hcount])]

/-- C10: `finalFillBleedFromEdge` only writes to bleed-ring pixels that test
near-white — every pixel of the final content rectangle, and every
in-bounds pixel that does not satisfy the bleed-white test (including
bleed-ring pixels that are white but have alpha ≤ 200), keeps exactly its
original RGBA bytes. -/
theorem finalFillBleedFromEdge_frame (b fw fh : ℕ) (d : ℕ → ℕ) :
    (∀ x y, b ≤ x → x < b + fw → b ≤ y → y < b + fh →
      ∀ j, j < 4 →
        (finalFillBleedFromEdge b fw fh d).data (pixIdx (fw + b * 2) x y + j) =
          d (pixIdx (fw + b * 2) x y + j)) ∧
    (∀ x y, x < fw + b * 2 → y < fh + b * 2 →
      isBleedWhite d (fw + b * 2) b fw fh x y = false →
      ∀ j, j < 4 →
        (finalFillBleedFromEdge b fw fh d).data (pixIdx (fw + b * 2) x y + j) =
          d (pixIdx (fw + b * 2) x y + j)) := by
  constructor
  · intro x y h1 h2 h3 h4 j hj
    exact finalFill_data_notwhite b fw fh d x y (by omega) (by omega)
      (isBleedWhite_inside (by omega)) j hj
  · intro x y hx hy hbw j hj
    exact finalFill_data_notwhite b fw fh d x y hx hy hbw j hj

/-- C10 witness: on the 3 × 3 sample canvas, the content pixel (1, 1) and
the low-alpha-style untouched corner keep their bytes. -/
theorem finalFillBleedFromEdge_frame_witness :
    ((1:ℕ) ≤ 1 ∧ (1:ℕ) < 1 + 1 ∧ (1:ℕ) ≤ 1 ∧ (1:ℕ) < 1 + 1 ∧ (0:ℕ) < 4) ∧
    (finalFillBleedFromEdge 1 1 1 sampleBuffer).data (pixIdx (1 + 1 * 2) 1 1 + 0) =
      sampleBuffer (pixIdx (1 + 1 * 2) 1 1 + 0) :=
  ⟨⟨by decide, by decide, by decide, by decide, by decide⟩,
   (finalFillBleedFromEdge_frame 1 1 1 sampleBuffer).1 1 1
     (by decide) (by decide) (by decide) (by decide) 0 (by decide)⟩

end PrepPrintPro
